import Mathlib

/-!
Verification development for the HRRR-Zarr example notebooks.

The notebooks load hourly HRRR analysis data from an S3 Zarr archive:
they format object-store URLs from a start date plus an hour offset,
open each hour's group/subgroup, repair metadata (rename the projection
coordinates, attach a Lambert conformal conic CRS, derive latitude and
longitude), concatenate the hours along a time dimension, and reduce a
data variable over time (standard deviation or mean).

This file shallowly embeds those orchestration functions and proves the
specification claims about them.  Python datetimes are modelled as
Gregorian calendar values with hour granularity (the notebooks only use
hour-resolution timedeltas); xarray datasets are modelled as records of
the fields the notebooks read or write; the remote Zarr store is an
abstract map from URLs to raw datasets.
-/

set_option autoImplicit false

/-- A Python `datetime` at hour resolution: the notebooks only ever use
year/month/day/hour (minutes and seconds stay zero throughout). -/
structure DateTime where
  year : Nat
  month : Nat
  day : Nat
  hour : Nat
deriving DecidableEq, Repr

/-- Gregorian leap-year test, as in CPython `datetime._is_leap`. -/
def isLeap (y : Nat) : Bool :=
  (y % 4 == 0 && y % 100 != 0) || y % 400 == 0

/-- Length of a month, as in CPython `datetime._days_in_month`. -/
def daysInMonth (y m : Nat) : Nat :=
  if m = 2 then (if isLeap y then 29 else 28)
  else if m = 4 ∨ m = 6 ∨ m = 9 ∨ m = 11 then 30
  else 31

/-- Validity of a calendar datetime: month in 1..12, day within the
month, hour below 24, positive year (Python `MINYEAR = 1`). -/
def DateTime.Valid (t : DateTime) : Prop :=
  1 ≤ t.year ∧ 1 ≤ t.month ∧ t.month ≤ 12 ∧
  1 ≤ t.day ∧ t.day ≤ daysInMonth t.year t.month ∧ t.hour < 24

instance (t : DateTime) : Decidable t.Valid := by
  unfold DateTime.Valid; infer_instance

/-- Successor day in the Gregorian calendar, rolling over month and year
boundaries. -/
def nextDay (t : DateTime) : DateTime :=
  if t.day < daysInMonth t.year t.month then
    { t with day := t.day + 1 }
  else if t.month < 12 then
    { t with month := t.month + 1, day := 1 }
  else
    { year := t.year + 1, month := 1, day := 1, hour := t.hour }

/-- Successor hour: increments the hour, rolling the date over midnight.
This is the unit step of `datetime + timedelta(hours=1)`. -/
def nextHour (t : DateTime) : DateTime :=
  if t.hour < 23 then { t with hour := t.hour + 1 }
  else { nextDay t with hour := 0 }

/-- `t + timedelta(hours=n)`, the only timedelta arithmetic the
notebooks perform. -/
def addHours (t : DateTime) : Nat → DateTime
  | 0 => t
  | n + 1 => nextHour (addHours t n)

/-- Number of leap years strictly before year `y`, as in CPython
`datetime._days_before_year`. -/
def leapsBefore (y : Nat) : Nat :=
  (y - 1) / 4 - (y - 1) / 100 + (y - 1) / 400

/-- Days in all years strictly before year `y`. -/
def daysBeforeYear (y : Nat) : Nat :=
  365 * (y - 1) + leapsBefore y

/-- Cumulative day counts of a non-leap year, the
`_DAYS_BEFORE_MONTH` table of CPython `datetime`. -/
def daysBeforeMonthTable : Nat → Nat
  | 1 => 0
  | 2 => 31
  | 3 => 59
  | 4 => 90
  | 5 => 120
  | 6 => 151
  | 7 => 181
  | 8 => 212
  | 9 => 243
  | 10 => 273
  | 11 => 304
  | 12 => 334
  | _ => 0

/-- Days in all months of year `y` strictly before month `m`. -/
def daysBeforeMonth (y m : Nat) : Nat :=
  daysBeforeMonthTable m + (if 2 < m ∧ isLeap y then 1 else 0)

/-- Proleptic-Gregorian ordinal of the date part (0-based), as computed
by CPython `date.toordinal` (shifted by one). -/
def toOrdinal (t : DateTime) : Nat :=
  daysBeforeYear t.year + daysBeforeMonth t.year t.month + (t.day - 1)

/-- Absolute hour count of a datetime; the measure that makes hour
addition injective. -/
def absHour (t : DateTime) : Nat :=
  24 * toOrdinal t + t.hour

/-- Decimal digits of `n`, zero-padded on the left to width `w`; the
`%0wd` rendering used by the strftime directives below. -/
def padNum (w n : Nat) : List Char :=
  let s := Nat.toDigits 10 n
  List.replicate (w - s.length) '0' ++ s

/-- Expansion of one strftime directive character, covering the
directives the notebooks use (`%Y`, `%m`, `%d`, `%H`, `%%`); any other
directive is left in place. -/
def directive (t : DateTime) (d : Char) : List Char :=
  if d = 'Y' then padNum 4 t.year
  else if d = 'm' then padNum 2 t.month
  else if d = 'd' then padNum 2 t.day
  else if d = 'H' then padNum 2 t.hour
  else if d = '%' then ['%']
  else ['%', d]

/-- Scanner of `datetime.strftime`: literal characters pass through, a
percent sign consumes the next character as a directive. -/
def strftimeAux (t : DateTime) : List Char → List Char
  | [] => []
  | c :: rest =>
    if c = '%' then
      match rest with
      | [] => ['%']
      | d :: rest2 => directive t d ++ strftimeAux t rest2
    else c :: strftimeAux t rest

/-- `t.strftime(fmt)` for the directives used by the notebooks. -/
def strftime (t : DateTime) (fmt : String) : String :=
  ⟨strftimeAux t fmt.data⟩

/-- `%Y%m%d` rendering of a datetime. -/
def fmtYmd (t : DateTime) : String :=
  ⟨padNum 4 t.year ++ padNum 2 t.month ++ padNum 2 t.day⟩

/-- `%H` rendering of a datetime. -/
def fmtH (t : DateTime) : String :=
  ⟨padNum 2 t.hour⟩

/-- The format string both notebooks build by f-string interpolation and
then hand to strftime:
`f"s3://hrrrzarr/sfc/%Y%m%d/%Y%m%d_%Hz_anl.zarr/{level}/{param_short_name}"`.
Note that the level and variable name are spliced into the format before
strftime runs. -/
def groupUrlFormat (level var : String) : String :=
  "s3://hrrrzarr/sfc/%Y%m%d/%Y%m%d_%Hz_anl.zarr/" ++ level ++ "/" ++ var

/-- `time.strftime(group_url_format)` as computed in both versions of
`load_combined_dataset`. -/
def mkGroupUrl (t : DateTime) (level var : String) : String :=
  strftime t (groupUrlFormat level var)

/-- Coordinate reference system record, the fields of the metpy
`assign_crs` calls and `to_cf()` projections used by the notebooks. -/
structure Crs where
  gridMappingName : String
  centralLongitude : ℚ
  centralLatitude : ℚ
  standardParallel : ℚ
deriving DecidableEq, Repr

/-- CRS attached by part_000's `load_dataset`:
`assign_crs(grid_mapping_name="lambert_conformal_conic",
longitude_of_central_meridian=-97.5, latitude_of_projection_origin=38.5,
standard_parallel=38.5)`. -/
def crsPart000 : Crs := ⟨"lambert_conformal_conic", -97.5 , 38.5, 38.5⟩

/-- CRS attached by the not_mf notebook:
`ccrs.LambertConformal(central_longitude=262.5, central_latitude=38.5,
standard_parallels=(38.5, 38.5), ...)  .to_cf()`. -/
def crsNotMf : Crs := ⟨"lambert_conformal_conic", 262.5, 38.5, 38.5⟩

/-- CRS of the projection notebook, built from the GRIB projection
parameters (proj lcc, lon_0 262.5, lat_0 38.5, lat_1 38.5, lat_2 38.5). -/
def crsProjParams : Crs := ⟨"lambert_conformal_conic", 262.5, 38.5, 38.5⟩

/-- A raw Zarr dataset as the archive serves it for one URL: data
variable names, all variable/coordinate names, the stored scalar time
attribute when present, and the projection coordinate values. -/
structure RawDs where
  dataVars : List String
  names : List String
  time : Option DateTime
  xVals : List Int
  yVals : List Int
deriving DecidableEq, Repr

/-- An xarray Dataset, restricted to the fields the notebooks read or
write: data variable names, all names, the time coordinate values, the
attached CRS, whether latitude/longitude were derived, and the x/y
coordinate values. -/
structure XDs where
  dataVars : List String
  names : List String
  times : List DateTime
  crs : Option Crs
  latlon : Bool
  xVals : List Int
  yVals : List Int
deriving DecidableEq, Repr

/-- View a freshly opened raw dataset as an xarray Dataset: no CRS, no
latitude/longitude, time values as stored. -/
def toXDs (r : RawDs) : XDs :=
  ⟨r.dataVars, r.names, r.time.toList, none, false, r.xVals, r.yVals⟩

/-- Merge of two zarr groups as performed by `xr.open_mfdataset` on the
group/subgroup pair: variables combine, and the scalar metadata comes
from whichever group has it (the group URL holds the grid and time, the
subgroup the data variable). -/
def mergeRaw (a b : RawDs) : RawDs :=
  { dataVars := a.dataVars ++ b.dataVars
    names := a.names ++ b.names
    time := a.time.orElse (fun _ => b.time)
    xVals := if a.xVals.isEmpty then b.xVals else a.xVals
    yVals := if a.yVals.isEmpty then b.yVals else a.yVals }

/-- The neutral raw dataset `open_mfdataset` starts its merge from. -/
def emptyRaw : RawDs := ⟨[], [], none, [], []⟩

/-- `xr.open_mfdataset(urls, engine="zarr")` over already-fetched raw
datasets. -/
def openMf (rs : List RawDs) : RawDs := rs.foldl mergeRaw emptyRaw

/-- The rename mapping of
`ds.rename(projection_x_coordinate="x", projection_y_coordinate="y")`:
exactly those two names change. -/
def renameXY (n : String) : String :=
  if n = "projection_x_coordinate" then "x"
  else if n = "projection_y_coordinate" then "y"
  else n

/-- Apply the rename to every variable and coordinate name. -/
def renameDs (ds : XDs) : XDs :=
  { ds with dataVars := ds.dataVars.map renameXY, names := ds.names.map renameXY }

/-- `ds.metpy.assign_crs(...)`: attaches the CRS. -/
def assignCrs (c : Crs) (ds : XDs) : XDs := { ds with crs := some c }

/-- `ds.metpy.assign_latitude_longitude()`: adds derived latitude and
longitude coordinates. -/
def assignLatitudeLongitude (ds : XDs) : XDs :=
  { ds with latlon := true, names := ds.names ++ ["latitude", "longitude"] }

/-- `xr.concat([a, b], dim="time")`: time coordinate values concatenate;
the other modelled fields (variables, grid, CRS) come from the first
argument, as they do for datasets that share their grid. -/
def concatTime (a b : XDs) : XDs := { a with times := a.times ++ b.times }

/-- `xr.concat(datasets, dim="time")` on a list: an error (`none`) on
the empty list, otherwise a pairwise fold from the first dataset. -/
def concatListTime : List XDs → Option XDs
  | [] => none
  | d :: ds => some (ds.foldl concatTime d)

namespace P0

/-- part_000 `load_dataset(urls)`: `open_mfdataset` over the URL list,
rename the projection coordinates to x/y, attach the Lambert conformal
conic CRS, derive latitude/longitude.  The final `set_coords("time")`
promotes time to a coordinate, which the `times` field already
represents. -/
def load_dataset (store : String → RawDs) (urls : List String) : XDs :=
  assignLatitudeLongitude (assignCrs crsPart000 (renameDs (toXDs (openMf (urls.map store)))))

/-- One iteration of part_000's `load_combined_dataset` loop: format the
group and subgroup URLs for the hour, load them, and either seed the
combined dataset or concatenate onto it.  The guard mirrors Python's
`if not combined_ds`: `None` is falsy, and a Dataset is falsy exactly
when it has no data variables.  The second component logs every URL
handed to the store, in order. -/
def step (store : String → RawDs) (level param_short_name : String)
    (acc : Option XDs × List String) (t : DateTime) : Option XDs × List String :=
  let group_url := mkGroupUrl t level param_short_name
  let subgroup_url := group_url ++ "/" ++ level
  let partial_ds := load_dataset store [group_url, subgroup_url]
  let combined :=
    match acc.1 with
    | none => some partial_ds
    | some c =>
      if c.dataVars.isEmpty then some partial_ds
      else some (concatTime c partial_ds)
  (combined, acc.2 ++ [group_url, subgroup_url])

/-- part_000 `load_combined_dataset(start_date, num_hours, level,
param_short_name)`, returning the combined dataset (None when the loop
body never runs) together with the log of opened URLs. -/
def load_combined_dataset (store : String → RawDs) (start_date : DateTime)
    (num_hours : Nat) (level param_short_name : String) : Option XDs × List String :=
  ((List.range num_hours).map (addHours start_date)).foldl
    (step store level param_short_name) (none, [])

end P0

namespace NM

/-- not_mf `load(url, time=None)`: open one URL lazily, set the time
variable to the argument, promote it to a coordinate, and rename the
projection coordinates to x/y.  No CRS and no latitude/longitude are
attached here. -/
def load (store : String → RawDs) (url : String) (time : Option DateTime) : XDs :=
  renameDs { toXDs (store url) with times := time.toList }

/-- The grid patch `ds["x"] = grid["x"]; ds["y"] = grid["y"]` of the
not_mf `load_combined_dataset`. -/
def assignXY (grid ds : XDs) : XDs := { ds with xVals := grid.xVals, yVals := grid.yVals }

/-- not_mf `load_combined_dataset`: load the grid once from the start
date's group URL, load each hour's subgroup with its time, concatenate
along time, patch the grid coordinates in, and attach the CRS and
latitude/longitude. -/
def load_combined_dataset (store : String → RawDs) (start_date : DateTime)
    (num_hours : Nat) (level param_short_name : String) : Option XDs :=
  let group_url := mkGroupUrl start_date level param_short_name
  let grid := load store group_url none
  let datasets := (List.range num_hours).map (fun i =>
    let t := addHours start_date i
    load store (mkGroupUrl t level param_short_name ++ "/" ++ level) (some t))
  (concatListTime datasets).map (fun ds =>
    assignLatitudeLongitude (assignCrs crsNotMf (assignXY grid ds)))

end NM

/-- projection notebook `assign_coordinates(ds)`: rename the projection
coordinates, attach the CRS built from the GRIB projection parameters,
derive latitude/longitude. -/
def assign_coordinates (ds : XDs) : XDs :=
  assignLatitudeLongitude (assignCrs crsProjParams (renameDs ds))

/-- A labelled 3-D array: dimension names plus a nested-list cube whose
outer axis is the first dimension.  This is the layout of `ds.TMP` and
`ds_from_s3.PRES` after concatenation along time (time is the leading
axis). -/
structure DataArray where
  dims : List String
  cube : List (List (List ℚ))
deriving DecidableEq, Repr

/-- A labelled 2-D array, the result shape of a reduction. -/
structure DataArray2 where
  dims : List String
  mat : List (List ℚ)
deriving DecidableEq, Repr

/-- The values along the outer axis at spatial cell (j, k). -/
def timeColumn (c : List (List (List ℚ))) (j k : Nat) : List ℚ :=
  c.map (fun s => (s.getD j []).getD k 0)

/-- `arr.stat(dim=d)` for a statistic `stat`: drops the named dimension
and applies the statistic to each remaining cell's value column.  The
embedding covers the layout the notebooks use, where the reduced
dimension (time) is the leading axis produced by `xr.concat`. -/
def reduceDim (stat : List ℚ → ℚ) (d : String) (a : DataArray) : Option DataArray2 :=
  if a.dims.head? = some d then
    let ny := (a.cube.getD 0 []).length
    let nx := ((a.cube.getD 0 []).getD 0 []).length
    some ⟨a.dims.tail,
      (List.range ny).map (fun j =>
        (List.range nx).map (fun k => stat (timeColumn a.cube j k)))⟩
  else none

/-- Arithmetic mean, the statistic of `.mean(dim="time")` in the
thread-locking notebook. -/
def meanQ (l : List ℚ) : ℚ := l.sum / l.length

/-- `std_dev = ds.TMP.std(dim="time")`, with the numeric statistic kept
abstract (it acts per value column like the mean). -/
def stdOverTime (std : List ℚ → ℚ) (a : DataArray) : Option DataArray2 :=
  reduceDim std "time" a

/-- `ds_from_s3.PRES.mean(dim="time")`. -/
def meanOverTime (a : DataArray) : Option DataArray2 :=
  reduceDim meanQ "time" a

/-- The group/subgroup URL pair part_000 builds for one hour. -/
def urlPair (level param_short_name : String) (t : DateTime) : List String :=
  [mkGroupUrl t level param_short_name,
   mkGroupUrl t level param_short_name ++ "/" ++ level]

/-- The per-hour dataset part_000 opens for one hour. -/
def p0PartialDs (store : String → RawDs) (level param_short_name : String)
    (t : DateTime) : XDs :=
  P0.load_dataset store (urlPair level param_short_name t)

/-- The per-hour dataset the not_mf loop appends: the hour's subgroup
URL opened with the hour as its time. -/
def nmHourDs (store : String → RawDs) (level var : String)
    (start : DateTime) (i : Nat) : XDs :=
  NM.load store (mkGroupUrl (addHours start i) level var ++ "/" ++ level)
    (some (addHours start i))

/-- The post-processing the not_mf `load_combined_dataset` applies to the
concatenated dataset: patch in the grid x/y, attach the CRS, derive
latitude/longitude. -/
def nmPost (store : String → RawDs) (start : DateTime) (level var : String)
    (ds : XDs) : XDs :=
  assignLatitudeLongitude (assignCrs crsNotMf
    (NM.assignXY (NM.load store (mkGroupUrl start level var) none) ds))

/-- A small concrete store for evaluating the loaders: every URL serves
a one-variable dataset whose stored time is 2021-04-01 00z. -/
def demoStore : String → RawDs := fun _ =>
  { dataVars := ["TMP"]
    names := ["TMP", "projection_x_coordinate", "projection_y_coordinate", "time"]
    time := some ⟨2021, 4, 1, 0⟩
    xVals := [1, 2]
    yVals := [3, 4] }

/-- A store whose grid values differ between the start hour's group URL
and every other URL, exhibiting which grid the not_mf patch uses. -/
def demoStore2 : String → RawDs := fun url =>
  if url = "s3://hrrrzarr/sfc/20210401/20210401_00z_anl.zarr/1000mb/TMP" then
    { dataVars := ["TMP"]
      names := ["TMP", "projection_x_coordinate", "projection_y_coordinate"]
      time := some ⟨2021, 4, 1, 0⟩
      xVals := [1, 2]
      yVals := [3, 4] }
  else
    { dataVars := ["TMP"]
      names := ["TMP", "projection_x_coordinate", "projection_y_coordinate"]
      time := some ⟨2021, 4, 1, 0⟩
      xVals := [99]
      yVals := [99] }

theorem daysBeforeYear_succ (y : Nat) (hy : 1 ≤ y) :
    daysBeforeYear (y + 1) = daysBeforeYear y + 365 + (if isLeap y then 1 else 0) := by
  unfold daysBeforeYear leapsBefore
  simp only [Nat.add_sub_cancel]
  split
  · rename_i hleap
    simp only [isLeap, Bool.or_eq_true, Bool.and_eq_true, beq_iff_eq, bne_iff_ne,
      ne_eq] at hleap
    omega
  · rename_i hleap
    simp only [isLeap, Bool.or_eq_true, Bool.and_eq_true, beq_iff_eq, bne_iff_ne,
      ne_eq] at hleap
    omega

theorem one_le_daysInMonth (y m : Nat) : 1 ≤ daysInMonth y m := by
  unfold daysInMonth
  split
  · split <;> norm_num
  · split <;> norm_num

theorem daysBeforeMonth_succ (y m : Nat) (h1 : 1 ≤ m) (h12 : m ≤ 11) :
    daysBeforeMonth y (m + 1) = daysBeforeMonth y m + daysInMonth y m := by
  interval_cases m <;>
    rcases Bool.eq_false_or_eq_true (isLeap y) with hb | hb <;>
      simp only [daysBeforeMonth, daysInMonth, hb] <;> decide

theorem toOrdinal_nextDay (t : DateTime) (h : t.Valid) :
    toOrdinal (nextDay t) = toOrdinal t + 1 := by
  obtain ⟨hy, hm1, hm12, hd1, hdm, _⟩ := h
  unfold nextDay
  by_cases hlt : t.day < daysInMonth t.year t.month
  · simp only [if_pos hlt, toOrdinal]
    omega
  · have hde : t.day = daysInMonth t.year t.month := le_antisymm hdm (not_lt.mp hlt)
    by_cases hm : t.month < 12
    · simp only [if_neg hlt, if_pos hm, toOrdinal]
      have := daysBeforeMonth_succ t.year t.month hm1 (by omega)
      omega
    · have hme : t.month = 12 := le_antisymm hm12 (not_lt.mp hm)
      simp only [if_neg hlt, if_neg hm, toOrdinal]
      have hby := daysBeforeYear_succ t.year hy
      have hdim : daysInMonth t.year 12 = 31 := by simp [daysInMonth]
      have hbm12 : daysBeforeMonth t.year 12 =
          334 + (if isLeap t.year then 1 else 0) := by
        simp [daysBeforeMonth, daysBeforeMonthTable]
      have hbm1 : daysBeforeMonth (t.year + 1) 1 = 0 := by
        simp [daysBeforeMonth, daysBeforeMonthTable]
      rw [hme] at hde ⊢
      rw [hdim] at hde
      rw [hbm1, hbm12, hde, hby]
      split <;> omega

theorem nextDay_valid (t : DateTime) (h : t.Valid) : (nextDay t).Valid := by
  obtain ⟨hy, hm1, hm12, hd1, hdm, hh⟩ := h
  unfold nextDay DateTime.Valid
  by_cases hlt : t.day < daysInMonth t.year t.month
  · simp only [if_pos hlt]
    exact ⟨hy, hm1, hm12, by omega, by omega, hh⟩
  · by_cases hm : t.month < 12
    · simp only [if_neg hlt, if_pos hm]
      exact ⟨hy, by omega, by omega, le_refl _, one_le_daysInMonth _ _, hh⟩
    · simp only [if_neg hlt, if_neg hm]
      exact ⟨by omega, by norm_num, by norm_num, le_refl _, one_le_daysInMonth _ _, hh⟩

theorem absHour_nextHour (t : DateTime) (h : t.Valid) :
    absHour (nextHour t) = absHour t + 1 := by
  unfold nextHour absHour
  by_cases hlt : t.hour < 23
  · simp only [if_pos hlt]
    have hto : toOrdinal { t with hour := t.hour + 1 } = toOrdinal t := rfl
    show 24 * toOrdinal { t with hour := t.hour + 1 } + (t.hour + 1) =
      24 * toOrdinal t + t.hour + 1
    rw [hto]
    omega
  · simp only [if_neg hlt]
    have hh : t.hour = 23 := by
      obtain ⟨_, _, _, _, _, h24⟩ := h
      omega
    have hord : toOrdinal { nextDay t with hour := 0 } = toOrdinal (nextDay t) := rfl
    show 24 * toOrdinal { nextDay t with hour := 0 } + 0 = 24 * toOrdinal t + t.hour + 1
    rw [hord, toOrdinal_nextDay t h, hh]
    omega

theorem nextHour_valid (t : DateTime) (h : t.Valid) : (nextHour t).Valid := by
  unfold nextHour DateTime.Valid
  by_cases hlt : t.hour < 23
  · simp only [if_pos hlt]
    obtain ⟨hy, hm1, hm12, hd1, hdm, _⟩ := h
    exact ⟨hy, hm1, hm12, hd1, hdm, by omega⟩
  · simp only [if_neg hlt]
    have hv := nextDay_valid t h
    obtain ⟨hy, hm1, hm12, hd1, hdm, _⟩ := hv
    exact ⟨hy, hm1, hm12, hd1, hdm, by omega⟩

theorem addHours_valid (t : DateTime) (h : t.Valid) (n : Nat) :
    (addHours t n).Valid := by
  induction n with
  | zero => exact h
  | succ n ih => exact nextHour_valid _ ih

theorem absHour_addHours (t : DateTime) (h : t.Valid) (n : Nat) :
    absHour (addHours t n) = absHour t + n := by
  induction n with
  | zero => rfl
  | succ n ih =>
    have := absHour_nextHour (addHours t n) (addHours_valid t h n)
    simp only [addHours]
    omega

theorem addHours_injective (t : DateTime) (h : t.Valid) :
    Function.Injective (addHours t) := by
  intro i j hij
  have hi := absHour_addHours t h i
  have hj := absHour_addHours t h j
  rw [hij, hj] at hi
  omega

theorem addHours_injective_ne (t : DateTime) (h : t.Valid) {i j : Nat} (hij : i ≠ j) :
    addHours t i ≠ addHours t j :=
  fun e => hij (addHours_injective t h e)

/-- The hour list `[start + 0h, start + 1h, ...]` has no duplicates. -/
theorem addHours_range_nodup (t : DateTime) (h : t.Valid) (n : Nat) :
    (((List.range n).map (addHours t))).Nodup :=
  (List.nodup_range n).map (addHours_injective t h)

theorem strftimeAux_nil (t : DateTime) : strftimeAux t [] = [] := rfl

theorem strftimeAux_cons_ne (t : DateTime) (c : Char) (l : List Char) (hc : ¬ c = '%') :
    strftimeAux t (c :: l) = c :: strftimeAux t l := by
  cases l with
  | nil => simp [strftimeAux, hc]
  | cons d r => simp [strftimeAux, hc]

theorem strftimeAux_pct (t : DateTime) (d : Char) (l : List Char) :
    strftimeAux t ('%' :: d :: l) = directive t d ++ strftimeAux t l := by
  simp [strftimeAux]

theorem strftimeAux_append_no_pct (t : DateTime) (l1 l2 : List Char) (h : '%' ∉ l1) :
    strftimeAux t (l1 ++ l2) = l1 ++ strftimeAux t l2 := by
  induction l1 with
  | nil => rfl
  | cons c cs ih =>
    have hc : ¬ c = '%' := fun e => h (e ▸ List.mem_cons_self c cs)
    have hcs : '%' ∉ cs := fun m => h (List.mem_cons_of_mem c m)
    rw [List.cons_append, strftimeAux_cons_ne t c _ hc, ih hcs]
    rfl

theorem strftimeAux_no_pct (t : DateTime) (l : List Char) (h : '%' ∉ l) :
    strftimeAux t l = l := by
  have h0 : strftimeAux t [] = [] := rfl
  have := strftimeAux_append_no_pct t l [] h
  simpa [h0] using this

/-- Rendering the notebooks' URL format: as long as the level and the
variable name contain no percent sign, strftime fills in the two date
fields and the hour and leaves level and variable verbatim. -/
theorem mkGroupUrl_eq (t : DateTime) (level var : String)
    (hl : '%' ∉ level.data) (hv : '%' ∉ var.data) :
    mkGroupUrl t level var =
      "s3://hrrrzarr/sfc/" ++ fmtYmd t ++ "/" ++ fmtYmd t ++ "_" ++ fmtH t ++
        "z_anl.zarr/" ++ level ++ "/" ++ var := by
  apply String.ext
  show strftimeAux t (groupUrlFormat level var).data = _
  have hfmt : (groupUrlFormat level var).data =
      's' :: '3' :: ':' :: '/' :: '/' :: 'h' :: 'r' :: 'r' :: 'r' :: 'z' :: 'a' :: 'r' :: 'r' :: '/' ::
      's' :: 'f' :: 'c' :: '/' ::
      '%' :: 'Y' :: '%' :: 'm' :: '%' :: 'd' :: '/' ::
      '%' :: 'Y' :: '%' :: 'm' :: '%' :: 'd' :: '_' :: '%' :: 'H' ::
      'z' :: '_' :: 'a' :: 'n' :: 'l' :: '.' :: 'z' :: 'a' :: 'r' :: 'r' :: '/' ::
      (level.data ++ ('/' :: var.data)) := by
    show ("s3://hrrrzarr/sfc/%Y%m%d/%Y%m%d_%Hz_anl.zarr/" ++ level ++ "/" ++ var).data = _
    simp only [String.data_append, List.append_assoc]
    rfl
  rw [hfmt]
  simp [strftimeAux_cons_ne, strftimeAux_pct, strftimeAux_append_no_pct, strftimeAux_no_pct,
    directive, fmtYmd, fmtH, hl, hv, String.data_append, List.append_assoc]

theorem p0_step_unfold (store : String → RawDs) (level var : String)
    (acc : Option XDs × List String) (t : DateTime) :
    P0.step store level var acc t =
      (match acc.1 with
        | none => some (p0PartialDs store level var t)
        | some c =>
          if c.dataVars.isEmpty then some (p0PartialDs store level var t)
          else some (concatTime c (p0PartialDs store level var t)),
       acc.2 ++ urlPair level var t) := rfl

theorem p0_fold_snd (store : String → RawDs) (level var : String) :
    ∀ (ts : List DateTime) (acc : Option XDs × List String),
      (ts.foldl (P0.step store level var) acc).2 =
        acc.2 ++ ts.bind (urlPair level var) := by
  intro ts
  induction ts with
  | nil => intro acc; simp
  | cons t ts ih =>
    intro acc
    rw [List.foldl_cons, ih, p0_step_unfold]
    simp [List.append_assoc]

theorem bind_pairs_get {α β : Type} (u v : α → β) :
    ∀ (l : List α) (i : Nat) (a : α), l.get? i = some a →
      (l.bind (fun x => [u x, v x])).get? (2 * i) = some (u a) ∧
      (l.bind (fun x => [u x, v x])).get? (2 * i + 1) = some (v a) := by
  intro l
  induction l with
  | nil => intro i a h; simp at h
  | cons x xs ih =>
    intro i a h
    cases i with
    | zero =>
      simp only [List.get?_cons_zero, Option.some.injEq] at h
      subst h
      constructor <;> rfl
    | succ i =>
      simp only [List.get?_cons_succ] at h
      have hmul : 2 * (i + 1) = 2 * i + 1 + 1 := by ring
      have hmul1 : 2 * (i + 1) + 1 = (2 * i + 1) + 1 + 1 := by ring
      rw [hmul1, hmul]
      have hbind : ((x :: xs).bind (fun x => [u x, v x])) =
          u x :: v x :: xs.bind (fun x => [u x, v x]) := rfl
      rw [hbind]
      simp only [List.get?_cons_succ]
      exact ih i a h

theorem foldl_concatTime_times (ds : List XDs) :
    ∀ (d : XDs), (ds.foldl concatTime d).times = d.times ++ ds.bind XDs.times := by
  induction ds with
  | nil => intro d; simp
  | cons e es ih =>
    intro d
    rw [List.foldl_cons, ih]
    show (concatTime d e).times ++ es.bind XDs.times = _
    have : (concatTime d e).times = d.times ++ e.times := rfl
    rw [this]
    simp [List.append_assoc]

theorem bind_singleton_map {α β : Type} (f : α → β) (l : List α) :
    (l.bind fun a => [f a]) = l.map f := by
  induction l with
  | nil => rfl
  | cons x xs ih => simp [ih]

theorem concatTime_dataVars (a b : XDs) : (concatTime a b).dataVars = a.dataVars := rfl

theorem p0_fold_fst_some (store : String → RawDs) (level var : String) :
    ∀ (ts : List DateTime) (c : XDs) (log : List String),
      c.dataVars.isEmpty = false →
      (ts.foldl (P0.step store level var) (some c, log)).1 =
        some (ts.foldl (fun x t => concatTime x (p0PartialDs store level var t)) c) := by
  intro ts
  induction ts with
  | nil => intro c log _; rfl
  | cons t ts ih =>
    intro c log hc
    rw [List.foldl_cons, p0_step_unfold]
    simp only [hc, Bool.false_eq_true, if_false]
    rw [List.foldl_cons]
    exact ih (concatTime c (p0PartialDs store level var t)) _ hc

/-- The combined dataset of part_000's loop equals the single list
concatenation, provided the seed dataset (the first hour) is non-empty. -/
theorem p0_fold_eq_concatList (store : String → RawDs) (level var : String)
    (t : DateTime) (ts : List DateTime)
    (h1 : (p0PartialDs store level var t).dataVars.isEmpty = false) :
    ((t :: ts).foldl (P0.step store level var) (none, [])).1 =
      concatListTime ((t :: ts).map (p0PartialDs store level var)) := by
  rw [List.foldl_cons, p0_step_unfold]
  simp only []
  rw [p0_fold_fst_some store level var ts (p0PartialDs store level var t) _ h1]
  show _ = some ((ts.map (p0PartialDs store level var)).foldl concatTime
    (p0PartialDs store level var t))
  rw [List.foldl_map]

theorem nm_lcd_eq (store : String → RawDs) (start : DateTime) (n : Nat)
    (level var : String) :
    NM.load_combined_dataset store start n level var =
      (concatListTime ((List.range n).map (nmHourDs store level var start))).map
        (nmPost store start level var) := rfl

theorem nmPost_times (store : String → RawDs) (start : DateTime)
    (level var : String) (ds : XDs) :
    (nmPost store start level var ds).times = ds.times := rfl

theorem nmHourDs_times (store : String → RawDs) (level var : String)
    (start : DateTime) (i : Nat) :
    (nmHourDs store level var start i).times = [addHours start i] := rfl

theorem bind_times_of_singleton (g : Nat → XDs) (h : Nat → DateTime) :
    ∀ (l : List Nat), (∀ i ∈ l, (g i).times = [h i]) →
      ((l.map g).bind XDs.times) = l.map h := by
  intro l
  induction l with
  | nil => intro _; rfl
  | cons x xs ih =>
    intro hl
    show (g x).times ++ (xs.map g).bind XDs.times = h x :: xs.map h
    rw [hl x (List.mem_cons_self x xs), ih (fun i hi => hl i (List.mem_cons_of_mem x hi))]
    rfl

theorem concatListTime_times_of_singleton (g : Nat → XDs) (h : Nat → DateTime) (m : Nat)
    (hg : ∀ i < m + 1, (g i).times = [h i]) :
    ∃ ds, concatListTime ((List.range (m + 1)).map g) = some ds ∧
      ds.times = (List.range (m + 1)).map h := by
  rw [List.range_succ_eq_map, List.map_cons]
  refine ⟨_, rfl, ?_⟩
  show ((((List.range m).map Nat.succ).map g).foldl concatTime (g 0)).times = _
  rw [foldl_concatTime_times, hg 0 (by omega)]
  have hmem : ∀ i ∈ (List.range m).map Nat.succ, (g i).times = [h i] := by
    intro i hiMem
    have hlt : i < m + 1 := by
      simp only [List.mem_map, List.mem_range] at hiMem
      omega
    exact hg i hlt
  rw [bind_times_of_singleton g h _ hmem]
  rw [List.map_cons, List.singleton_append]

/-- C9: for num_hours = 0, part_000's load_combined_dataset returns None
(the loop body never runs, combined_ds keeps its initial None), no URL
is constructed, and no remote open is attempted (the URL log is empty). -/
theorem C9_zero_hours_none (store : String → RawDs) (start : DateTime)
    (level param_short_name : String) :
    P0.load_combined_dataset store start 0 level param_short_name = (none, []) := rfl

/-- C1 (amended): for every hour index i < num_hours, provided the level
and the variable name contain no percent sign, the i-th group URL opened
by part_000's load_combined_dataset is
s3://hrrrzarr/sfc/YYYYMMDD/YYYYMMDD_HHz_anl.zarr/level/variable rendered
at start_date + i hours (with day rollover handled by the calendar
arithmetic of addHours), and the subgroup URL that follows it is the
group URL with the level appended. -/
theorem C1_group_and_subgroup_urls (store : String → RawDs) (start : DateTime)
    (level var : String) (hl : '%' ∉ level.data) (hv : '%' ∉ var.data)
    (n i : Nat) (hi : i < n) :
    (P0.load_combined_dataset store start n level var).2.get? (2 * i) =
      some ("s3://hrrrzarr/sfc/" ++ fmtYmd (addHours start i) ++ "/" ++
        fmtYmd (addHours start i) ++ "_" ++ fmtH (addHours start i) ++
        "z_anl.zarr/" ++ level ++ "/" ++ var) ∧
    (P0.load_combined_dataset store start n level var).2.get? (2 * i + 1) =
      some (mkGroupUrl (addHours start i) level var ++ "/" ++ level) := by
  have hlog : (P0.load_combined_dataset store start n level var).2 =
      ((List.range n).map (addHours start)).bind (urlPair level var) := by
    unfold P0.load_combined_dataset
    rw [p0_fold_snd]
    simp
  have hget : ((List.range n).map (addHours start)).get? i = some (addHours start i) := by
    rw [List.get?_map, List.get?_range hi]
    rfl
  have hb : ((((List.range n).map (addHours start)).bind (urlPair level var)).get? (2 * i) =
        some (mkGroupUrl (addHours start i) level var)) ∧
      ((((List.range n).map (addHours start)).bind (urlPair level var)).get? (2 * i + 1) =
        some (mkGroupUrl (addHours start i) level var ++ "/" ++ level)) :=
    bind_pairs_get (fun t => mkGroupUrl t level var)
      (fun t => mkGroupUrl t level var ++ "/" ++ level)
      ((List.range n).map (addHours start)) i (addHours start i) hget
  rw [hlog]
  refine ⟨?_, hb.2⟩
  rw [← mkGroupUrl_eq (addHours start i) level var hl hv]
  exact hb.1

/-- C1 fails as frozen for levels containing a strftime directive: the
notebooks interpolate the level into the format string before strftime
runs, so for level "%Y" the group URL carries the year where the level
should appear, not the level itself. -/
theorem C1_strftime_level_counterexample :
    (P0.load_combined_dataset demoStore ⟨2021, 4, 1, 0⟩ 1 "%Y" "TMP").2.get? 0 =
      some "s3://hrrrzarr/sfc/20210401/20210401_00z_anl.zarr/2021/TMP" ∧
    (P0.load_combined_dataset demoStore ⟨2021, 4, 1, 0⟩ 1 "%Y" "TMP").2.get? 0 ≠
      some ("s3://hrrrzarr/sfc/" ++ fmtYmd (addHours ⟨2021, 4, 1, 0⟩ 0) ++ "/" ++
        fmtYmd (addHours ⟨2021, 4, 1, 0⟩ 0) ++ "_" ++ fmtH (addHours ⟨2021, 4, 1, 0⟩ 0) ++
        "z_anl.zarr/" ++ "%Y" ++ "/" ++ "TMP") := by
  constructor
  · decide
  · decide

/-- Witness for C1 at a midnight-crossing start: at 2021-12-31 23:00 the
second hour's URLs roll both date components over to 2022-01-01 00z. -/
theorem C1_group_and_subgroup_urls_witness :
    ('%' ∉ "1000mb".data) ∧ ('%' ∉ "TMP".data) ∧ (1 < 2) ∧
    ((P0.load_combined_dataset demoStore ⟨2021, 12, 31, 23⟩ 2 "1000mb" "TMP").2.get? (2 * 1) =
        some ("s3://hrrrzarr/sfc/" ++ fmtYmd (addHours ⟨2021, 12, 31, 23⟩ 1) ++ "/" ++
          fmtYmd (addHours ⟨2021, 12, 31, 23⟩ 1) ++ "_" ++ fmtH (addHours ⟨2021, 12, 31, 23⟩ 1) ++
          "z_anl.zarr/" ++ "1000mb" ++ "/" ++ "TMP") ∧
      (P0.load_combined_dataset demoStore ⟨2021, 12, 31, 23⟩ 2 "1000mb" "TMP").2.get? (2 * 1 + 1) =
        some (mkGroupUrl (addHours ⟨2021, 12, 31, 23⟩ 1) "1000mb" "TMP" ++ "/" ++ "1000mb")) ∧
    ("s3://hrrrzarr/sfc/" ++ fmtYmd (addHours ⟨2021, 12, 31, 23⟩ 1) ++ "/" ++
        fmtYmd (addHours ⟨2021, 12, 31, 23⟩ 1) ++ "_" ++ fmtH (addHours ⟨2021, 12, 31, 23⟩ 1) ++
        "z_anl.zarr/" ++ "1000mb" ++ "/" ++ "TMP" =
      "s3://hrrrzarr/sfc/20220101/20220101_00z_anl.zarr/1000mb/TMP") :=
  ⟨by decide, by decide, by decide,
   C1_group_and_subgroup_urls demoStore ⟨2021, 12, 31, 23⟩ "1000mb" "TMP"
     (by decide) (by decide) 2 1 (by decide),
   by decide⟩

theorem nm_combined_times (store : String → RawDs) (start : DateTime) (m : Nat)
    (level var : String) :
    ∃ ds, NM.load_combined_dataset store start (m + 1) level var = some ds ∧
      ds.times = (List.range (m + 1)).map (addHours start) := by
  obtain ⟨d0, hd0, htimes⟩ := concatListTime_times_of_singleton
    (nmHourDs store level var start) (addHours start) m (fun i _ => rfl)
  refine ⟨nmPost store start level var d0, ?_, ?_⟩
  · rw [nm_lcd_eq, hd0]
    rfl
  · rw [nmPost_times, htimes]

theorem p0_combined_eq_concat (store : String → RawDs) (start : DateTime) (m : Nat)
    (level var : String)
    (hne : (p0PartialDs store level var (addHours start 0)).dataVars.isEmpty = false) :
    (P0.load_combined_dataset store start (m + 1) level var).1 =
      concatListTime (((List.range (m + 1)).map (addHours start)).map
        (p0PartialDs store level var)) := by
  have hcons : (List.range (m + 1)).map (addHours start) =
      addHours start 0 :: (((List.range m).map Nat.succ).map (addHours start)) := by
    rw [List.range_succ_eq_map, List.map_cons]
  unfold P0.load_combined_dataset
  rw [hcons]
  exact p0_fold_eq_concatList store level var (addHours start 0) _ hne

theorem p0_combined_times (store : String → RawDs) (start : DateTime) (m : Nat)
    (level var : String)
    (ht : ∀ i < m + 1, (p0PartialDs store level var (addHours start i)).times =
      [addHours start i])
    (hne : (p0PartialDs store level var (addHours start 0)).dataVars.isEmpty = false) :
    ∃ ds, (P0.load_combined_dataset store start (m + 1) level var).1 = some ds ∧
      ds.times = (List.range (m + 1)).map (addHours start) := by
  obtain ⟨d0, hd0, htimes⟩ := concatListTime_times_of_singleton
    (fun i => p0PartialDs store level var (addHours start i)) (addHours start) m ht
  have hListEq : ((List.range (m + 1)).map (addHours start)).map
      (p0PartialDs store level var) =
      (List.range (m + 1)).map (fun i => p0PartialDs store level var (addHours start i)) := by
    rw [List.map_map]
    rfl
  refine ⟨d0, ?_, htimes⟩
  rw [p0_combined_eq_concat store start m level var hne, hListEq, hd0]

/-- C4: the orchestration has no effective branching: assuming each
per-hour dataset is non-empty, the iterative pairwise concatenation of
part_000's loop (guarded by Python's falsiness test on combined_ds)
returns the same dataset as a single concatenation of the list of all
per-hour datasets along the time dimension, the style used by the
not_mf version. -/
theorem C4_fold_concat_refinement (store : String → RawDs) (start : DateTime)
    (n : Nat) (level var : String) (hn : 1 ≤ n)
    (hne : ∀ i < n,
      (p0PartialDs store level var (addHours start i)).dataVars.isEmpty = false) :
    (P0.load_combined_dataset store start n level var).1 =
      concatListTime (((List.range n).map (addHours start)).map
        (p0PartialDs store level var)) := by
  obtain ⟨m, rfl⟩ : ∃ m, n = m + 1 := ⟨n - 1, by omega⟩
  exact p0_combined_eq_concat store start m level var (hne 0 (by omega))

/-- C2: for num_hours ≥ 1 the combined dataset exists and its time
coordinate has exactly num_hours values, the i-th being start_date + i
hours, in hour order.  For the not_mf version this is unconditional; for
part_000 it holds whenever the archive's per-hour datasets carry the
hour as their stored time and the first per-hour dataset is non-empty. -/
theorem C2_time_coordinate (store : String → RawDs) (start : DateTime)
    (n : Nat) (level var : String) (hn : 1 ≤ n)
    (ht : ∀ i < n, (p0PartialDs store level var (addHours start i)).times =
      [addHours start i])
    (hne : (p0PartialDs store level var (addHours start 0)).dataVars.isEmpty = false) :
    (∃ ds, NM.load_combined_dataset store start n level var = some ds ∧
      ds.times = (List.range n).map (addHours start) ∧ ds.times.length = n) ∧
    (∃ ds, (P0.load_combined_dataset store start n level var).1 = some ds ∧
      ds.times = (List.range n).map (addHours start) ∧ ds.times.length = n) := by
  obtain ⟨m, rfl⟩ : ∃ m, n = m + 1 := ⟨n - 1, by omega⟩
  constructor
  · obtain ⟨ds, hds, htimes⟩ := nm_combined_times store start m level var
    exact ⟨ds, hds, htimes, by rw [htimes]; simp⟩
  · obtain ⟨ds, hds, htimes⟩ := p0_combined_times store start m level var ht hne
    exact ⟨ds, hds, htimes, by rw [htimes]; simp⟩

/-- C5: the time coordinate values of every combined dataset are
pairwise distinct: the i-th equals start_date + i hours, and hour
addition is injective for a valid start datetime.  Stated for both
versions of load_combined_dataset, with the same store conditions as C2
for the part_000 version. -/
theorem C5_times_pairwise_distinct (store : String → RawDs) (start : DateTime)
    (hstart : start.Valid) (n : Nat) (level var : String) (hn : 1 ≤ n)
    (ht : ∀ i < n, (p0PartialDs store level var (addHours start i)).times =
      [addHours start i])
    (hne : (p0PartialDs store level var (addHours start 0)).dataVars.isEmpty = false) :
    (∃ ds, NM.load_combined_dataset store start n level var = some ds ∧
      ds.times = (List.range n).map (addHours start) ∧ ds.times.Nodup) ∧
    (∃ ds, (P0.load_combined_dataset store start n level var).1 = some ds ∧
      ds.times = (List.range n).map (addHours start) ∧ ds.times.Nodup) := by
  obtain ⟨m, rfl⟩ : ∃ m, n = m + 1 := ⟨n - 1, by omega⟩
  have hnd : ((List.range (m + 1)).map (addHours start)).Nodup :=
    addHours_range_nodup start hstart (m + 1)
  constructor
  · obtain ⟨ds, hds, htimes⟩ := nm_combined_times store start m level var
    exact ⟨ds, hds, htimes, by rw [htimes]; exact hnd⟩
  · obtain ⟨ds, hds, htimes⟩ := p0_combined_times store start m level var ht hne
    exact ⟨ds, hds, htimes, by rw [htimes]; exact hnd⟩

/-- Witness for C4 on a concrete two-hour load. -/
theorem C4_fold_concat_refinement_witness :
    (1 ≤ 2) ∧
    (∀ i < 2, (p0PartialDs demoStore "1000mb" "TMP"
      (addHours ⟨2021, 4, 1, 0⟩ i)).dataVars.isEmpty = false) ∧
    (P0.load_combined_dataset demoStore ⟨2021, 4, 1, 0⟩ 2 "1000mb" "TMP").1 =
      concatListTime (((List.range 2).map (addHours ⟨2021, 4, 1, 0⟩)).map
        (p0PartialDs demoStore "1000mb" "TMP")) :=
  ⟨by decide, by decide,
   C4_fold_concat_refinement demoStore ⟨2021, 4, 1, 0⟩ 2 "1000mb" "TMP"
     (by decide) (by decide)⟩

/-- Witness for C2 on a concrete one-hour load. -/
theorem C2_time_coordinate_witness :
    (1 ≤ 1) ∧
    (∀ i < 1, (p0PartialDs demoStore "1000mb" "TMP" (addHours ⟨2021, 4, 1, 0⟩ i)).times =
      [addHours ⟨2021, 4, 1, 0⟩ i]) ∧
    ((p0PartialDs demoStore "1000mb" "TMP"
      (addHours ⟨2021, 4, 1, 0⟩ 0)).dataVars.isEmpty = false) ∧
    ((∃ ds, NM.load_combined_dataset demoStore ⟨2021, 4, 1, 0⟩ 1 "1000mb" "TMP" = some ds ∧
        ds.times = (List.range 1).map (addHours ⟨2021, 4, 1, 0⟩) ∧ ds.times.length = 1) ∧
      (∃ ds, (P0.load_combined_dataset demoStore ⟨2021, 4, 1, 0⟩ 1 "1000mb" "TMP").1 = some ds ∧
        ds.times = (List.range 1).map (addHours ⟨2021, 4, 1, 0⟩) ∧ ds.times.length = 1)) :=
  ⟨by decide, by decide, by decide,
   C2_time_coordinate demoStore ⟨2021, 4, 1, 0⟩ 1 "1000mb" "TMP"
     (by decide) (by decide) (by decide)⟩

/-- Witness for C5 on a concrete one-hour load from a valid start. -/
theorem C5_times_pairwise_distinct_witness :
    (DateTime.Valid ⟨2021, 4, 1, 0⟩) ∧ (1 ≤ 1) ∧
    (∀ i < 1, (p0PartialDs demoStore "1000mb" "TMP" (addHours ⟨2021, 4, 1, 0⟩ i)).times =
      [addHours ⟨2021, 4, 1, 0⟩ i]) ∧
    ((p0PartialDs demoStore "1000mb" "TMP"
      (addHours ⟨2021, 4, 1, 0⟩ 0)).dataVars.isEmpty = false) ∧
    ((∃ ds, NM.load_combined_dataset demoStore ⟨2021, 4, 1, 0⟩ 1 "1000mb" "TMP" = some ds ∧
        ds.times = (List.range 1).map (addHours ⟨2021, 4, 1, 0⟩) ∧ ds.times.Nodup) ∧
      (∃ ds, (P0.load_combined_dataset demoStore ⟨2021, 4, 1, 0⟩ 1 "1000mb" "TMP").1 = some ds ∧
        ds.times = (List.range 1).map (addHours ⟨2021, 4, 1, 0⟩) ∧ ds.times.Nodup)) :=
  ⟨by decide, by decide, by decide, by decide,
   C5_times_pairwise_distinct demoStore ⟨2021, 4, 1, 0⟩ (by decide) 1 "1000mb" "TMP"
     (by decide) (by decide) (by decide)⟩

/-- C3 fails as frozen: the not_mf notebook's `load` — one of the cited
loading functions — only renames the projection coordinates and sets
time; it attaches no CRS and derives no latitude/longitude. -/
theorem C3_nm_load_no_crs_counterexample :
    (NM.load demoStore "s3://hrrrzarr/sfc/20210401/20210401_00z_anl.zarr/1000mb/TMP"
      none).crs = none ∧
    (NM.load demoStore "s3://hrrrzarr/sfc/20210401/20210401_00z_anl.zarr/1000mb/TMP"
      none).latlon = false :=
  ⟨rfl, rfl⟩

/-- C3 (amended): the rename maps exactly projection_x_coordinate to x
and projection_y_coordinate to y and nothing else; part_000's
load_dataset and the projection notebook's assign_coordinates rename and
attach a Lambert conformal conic CRS and latitude/longitude; the not_mf
load only renames (no CRS, no latitude/longitude) — there the CRS and
latitude/longitude are attached by load_combined_dataset, so every
combined dataset still carries all three repairs. -/
theorem C3_metadata_repair (store : String → RawDs) (urls : List String)
    (url : String) (t : Option DateTime) (ds0 : XDs) (start : DateTime) (n : Nat)
    (level var : String) (nm : String)
    (h1 : nm ≠ "projection_x_coordinate") (h2 : nm ≠ "projection_y_coordinate")
    (dsc : XDs) (hsome : NM.load_combined_dataset store start n level var = some dsc) :
    (renameXY "projection_x_coordinate" = "x" ∧ renameXY "projection_y_coordinate" = "y" ∧
      renameXY nm = nm) ∧
    ((P0.load_dataset store urls).names =
        (openMf (urls.map store)).names.map renameXY ++ ["latitude", "longitude"] ∧
      (P0.load_dataset store urls).crs = some crsPart000 ∧
      crsPart000.gridMappingName = "lambert_conformal_conic" ∧
      (P0.load_dataset store urls).latlon = true) ∧
    ((assign_coordinates ds0).names = ds0.names.map renameXY ++ ["latitude", "longitude"] ∧
      (assign_coordinates ds0).crs = some crsProjParams ∧
      crsProjParams.gridMappingName = "lambert_conformal_conic" ∧
      (assign_coordinates ds0).latlon = true) ∧
    ((NM.load store url t).names = (store url).names.map renameXY ∧
      (NM.load store url t).crs = none ∧ (NM.load store url t).latlon = false ∧
      dsc.crs = some crsNotMf ∧ crsNotMf.gridMappingName = "lambert_conformal_conic" ∧
      dsc.latlon = true) := by
  have hpost : ∃ d,
      concatListTime ((List.range n).map (nmHourDs store level var start)) = some d ∧
      nmPost store start level var d = dsc := by
    rw [nm_lcd_eq] at hsome
    exact Option.map_eq_some'.mp hsome
  obtain ⟨d, hd, hdc⟩ := hpost
  refine ⟨⟨by decide, by decide, ?_⟩, ⟨rfl, rfl, rfl, rfl⟩, ⟨rfl, rfl, rfl, rfl⟩,
    ⟨rfl, rfl, rfl, ?_, rfl, ?_⟩⟩
  · unfold renameXY
    rw [if_neg h1, if_neg h2]
  · rw [← hdc]; rfl
  · rw [← hdc]; rfl

/-- Witness for C3 on concrete inputs, with the combined dataset of a
one-hour not_mf load given explicitly. -/
theorem C3_metadata_repair_witness :
    ("TMP" ≠ "projection_x_coordinate") ∧ ("TMP" ≠ "projection_y_coordinate") ∧
    (NM.load_combined_dataset demoStore ⟨2021, 4, 1, 0⟩ 1 "1000mb" "TMP" =
      some ⟨["TMP"], ["TMP", "x", "y", "time", "latitude", "longitude"],
        [⟨2021, 4, 1, 0⟩], some crsNotMf, true, [1, 2], [3, 4]⟩) ∧
    ((renameXY "projection_x_coordinate" = "x" ∧ renameXY "projection_y_coordinate" = "y" ∧
      renameXY "TMP" = "TMP") ∧
    ((P0.load_dataset demoStore ["u1", "u2"]).names =
        (openMf (["u1", "u2"].map demoStore)).names.map renameXY ++ ["latitude", "longitude"] ∧
      (P0.load_dataset demoStore ["u1", "u2"]).crs = some crsPart000 ∧
      crsPart000.gridMappingName = "lambert_conformal_conic" ∧
      (P0.load_dataset demoStore ["u1", "u2"]).latlon = true) ∧
    ((assign_coordinates (toXDs (demoStore "u1"))).names =
        (toXDs (demoStore "u1")).names.map renameXY ++ ["latitude", "longitude"] ∧
      (assign_coordinates (toXDs (demoStore "u1"))).crs = some crsProjParams ∧
      crsProjParams.gridMappingName = "lambert_conformal_conic" ∧
      (assign_coordinates (toXDs (demoStore "u1"))).latlon = true) ∧
    ((NM.load demoStore "u3" none).names = (demoStore "u3").names.map renameXY ∧
      (NM.load demoStore "u3" none).crs = none ∧ (NM.load demoStore "u3" none).latlon = false ∧
      XDs.crs ⟨["TMP"], ["TMP", "x", "y", "time", "latitude", "longitude"],
        [⟨2021, 4, 1, 0⟩], some crsNotMf, true, [1, 2], [3, 4]⟩ = some crsNotMf ∧
      crsNotMf.gridMappingName = "lambert_conformal_conic" ∧
      XDs.latlon ⟨["TMP"], ["TMP", "x", "y", "time", "latitude", "longitude"],
        [⟨2021, 4, 1, 0⟩], some crsNotMf, true, [1, 2], [3, 4]⟩ = true)) :=
  ⟨by decide, by decide, by rfl,
   C3_metadata_repair demoStore ["u1", "u2"] "u3" none (toXDs (demoStore "u1"))
     ⟨2021, 4, 1, 0⟩ 1 "1000mb" "TMP" "TMP" (by decide) (by decide)
     ⟨["TMP"], ["TMP", "x", "y", "time", "latitude", "longitude"],
       [⟨2021, 4, 1, 0⟩], some crsNotMf, true, [1, 2], [3, 4]⟩ (by rfl)⟩

/-- C10: the grid patch of the not_mf load_combined_dataset changes only
the x and y coordinate values (every other modelled field of the
concatenated dataset is unchanged), and the combined dataset's x and y
equal those of the grid dataset opened once at the start date's group
URL. -/
theorem C10_grid_patch_frame (grid ds : XDs) (store : String → RawDs)
    (start : DateTime) (n : Nat) (level var : String) (dsc : XDs)
    (hsome : NM.load_combined_dataset store start n level var = some dsc) :
    ((NM.assignXY grid ds).xVals = grid.xVals ∧ (NM.assignXY grid ds).yVals = grid.yVals ∧
      (NM.assignXY grid ds).dataVars = ds.dataVars ∧ (NM.assignXY grid ds).names = ds.names ∧
      (NM.assignXY grid ds).times = ds.times ∧ (NM.assignXY grid ds).crs = ds.crs ∧
      (NM.assignXY grid ds).latlon = ds.latlon) ∧
    (dsc.xVals = (NM.load store (mkGroupUrl start level var) none).xVals ∧
      dsc.yVals = (NM.load store (mkGroupUrl start level var) none).yVals) := by
  have hpost : ∃ d,
      concatListTime ((List.range n).map (nmHourDs store level var start)) = some d ∧
      nmPost store start level var d = dsc := by
    rw [nm_lcd_eq] at hsome
    exact Option.map_eq_some'.mp hsome
  obtain ⟨d, hd, hdc⟩ := hpost
  refine ⟨⟨rfl, rfl, rfl, rfl, rfl, rfl, rfl⟩, ?_, ?_⟩
  · rw [← hdc]; rfl
  · rw [← hdc]; rfl

/-- Witness for C10 on a two-hour load from a store whose grid values at
the start hour's group URL ([1,2]/[3,4]) differ from every other URL
([99]): the combined dataset carries the start hour's grid. -/
theorem C10_grid_patch_frame_witness :
    (NM.load_combined_dataset demoStore2 ⟨2021, 4, 1, 0⟩ 2 "1000mb" "TMP" =
      some ⟨["TMP"], ["TMP", "x", "y", "latitude", "longitude"],
        [⟨2021, 4, 1, 0⟩, ⟨2021, 4, 1, 1⟩], some crsNotMf, true, [1, 2], [3, 4]⟩) ∧
    (((NM.assignXY (toXDs (demoStore2 "g")) (toXDs (demoStore2 "h"))).xVals =
        (toXDs (demoStore2 "g")).xVals ∧
      (NM.assignXY (toXDs (demoStore2 "g")) (toXDs (demoStore2 "h"))).yVals =
        (toXDs (demoStore2 "g")).yVals ∧
      (NM.assignXY (toXDs (demoStore2 "g")) (toXDs (demoStore2 "h"))).dataVars =
        (toXDs (demoStore2 "h")).dataVars ∧
      (NM.assignXY (toXDs (demoStore2 "g")) (toXDs (demoStore2 "h"))).names =
        (toXDs (demoStore2 "h")).names ∧
      (NM.assignXY (toXDs (demoStore2 "g")) (toXDs (demoStore2 "h"))).times =
        (toXDs (demoStore2 "h")).times ∧
      (NM.assignXY (toXDs (demoStore2 "g")) (toXDs (demoStore2 "h"))).crs =
        (toXDs (demoStore2 "h")).crs ∧
      (NM.assignXY (toXDs (demoStore2 "g")) (toXDs (demoStore2 "h"))).latlon =
        (toXDs (demoStore2 "h")).latlon) ∧
     (XDs.xVals ⟨["TMP"], ["TMP", "x", "y", "latitude", "longitude"],
        [⟨2021, 4, 1, 0⟩, ⟨2021, 4, 1, 1⟩], some crsNotMf, true, [1, 2], [3, 4]⟩ =
        (NM.load demoStore2 (mkGroupUrl ⟨2021, 4, 1, 0⟩ "1000mb" "TMP") none).xVals ∧
      XDs.yVals ⟨["TMP"], ["TMP", "x", "y", "latitude", "longitude"],
        [⟨2021, 4, 1, 0⟩, ⟨2021, 4, 1, 1⟩], some crsNotMf, true, [1, 2], [3, 4]⟩ =
        (NM.load demoStore2 (mkGroupUrl ⟨2021, 4, 1, 0⟩ "1000mb" "TMP") none).yVals)) ∧
    ((NM.load demoStore2 (mkGroupUrl (addHours ⟨2021, 4, 1, 0⟩ 1) "1000mb" "TMP" ++
        "/" ++ "1000mb") (some (addHours ⟨2021, 4, 1, 0⟩ 1))).xVals = [99]) :=
  ⟨by rfl,
   C10_grid_patch_frame (toXDs (demoStore2 "g")) (toXDs (demoStore2 "h")) demoStore2
     ⟨2021, 4, 1, 0⟩ 2 "1000mb" "TMP"
     ⟨["TMP"], ["TMP", "x", "y", "latitude", "longitude"],
       [⟨2021, 4, 1, 0⟩, ⟨2021, 4, 1, 1⟩], some crsNotMf, true, [1, 2], [3, 4]⟩ (by rfl),
   by decide⟩

theorem getD_map_range {β : Type} (f : Nat → β) (d : β) (n j : Nat) (hj : j < n) :
    ((List.range n).map f).getD j d = f j := by
  rw [List.getD_eq_get?, List.get?_map, List.get?_range hj]
  rfl

/-- C6: the statistic is computed by reducing over the time dimension
only: for every array with a leading time axis and two spatial axes and
a well-formed nt x ny x nx cube, the reduction keeps the two spatial
axes, drops the time axis, yields an ny x nx matrix (one value per
spatial grid cell), and each cell is the statistic of that cell's value
column along time.  Instantiating stat gives both the standard deviation
of the analysis notebooks and the mean of the thread-locking notebook. -/
theorem C6_reduce_over_time (stat : List ℚ → ℚ) (a : DataArray) (sy sx : String)
    (hdims : a.dims = ["time", sy, sx]) (hsy : sy ≠ "time") (hsx : sx ≠ "time")
    (ny nx : Nat) (h1 : 1 ≤ a.cube.length)
    (hslice : ∀ s ∈ a.cube, s.length = ny ∧ ∀ r ∈ s, r.length = nx) :
    ∃ r, reduceDim stat "time" a = some r ∧
      r.dims = [sy, sx] ∧ "time" ∉ r.dims ∧
      r.mat.length = ny ∧ (∀ row ∈ r.mat, row.length = nx) ∧
      (∀ j k, j < ny → k < nx →
        (r.mat.getD j []).getD k 0 = stat (timeColumn a.cube j k)) := by
  obtain ⟨s0, cs, hcube⟩ : ∃ s0 cs, a.cube = s0 :: cs := by
    cases hc : a.cube with
    | nil => rw [hc] at h1; simp at h1
    | cons s0 cs => exact ⟨s0, cs, rfl⟩
  have hs0 : s0 ∈ a.cube := by rw [hcube]; exact List.mem_cons_self s0 cs
  have hs0len : s0.length = ny := (hslice s0 hs0).1
  have hny : (a.cube.getD 0 []).length = ny := by
    rw [hcube]
    simpa using hs0len
  have hnx : 1 ≤ ny → ((a.cube.getD 0 []).getD 0 []).length = nx := by
    intro hge
    rw [hcube]
    cases hs : s0 with
    | nil =>
      rw [hs] at hs0len
      simp at hs0len
      omega
    | cons r0 rs =>
      have hr0 : r0 ∈ s0 := by rw [hs]; exact List.mem_cons_self r0 rs
      have := (hslice s0 hs0).2 r0 hr0
      simpa using this
  have hhead : a.dims.head? = some "time" := by rw [hdims]; rfl
  have hred : reduceDim stat "time" a = some ⟨a.dims.tail,
      (List.range ((a.cube.getD 0 []).length)).map (fun j =>
        (List.range (((a.cube.getD 0 []).getD 0 []).length)).map
          (fun k => stat (timeColumn a.cube j k)))⟩ := by
    unfold reduceDim
    rw [if_pos hhead]
  refine ⟨_, hred, ?_, ?_, ?_, ?_, ?_⟩
  · show a.dims.tail = [sy, sx]
    rw [hdims]
    rfl
  · show "time" ∉ a.dims.tail
    rw [hdims]
    intro hmem
    simp only [List.tail_cons, List.mem_cons] at hmem
    rcases hmem with e | e | e
    · exact hsy e.symm
    · exact hsx e.symm
    · exact List.not_mem_nil _ e
  · show (List.map _ (List.range ((a.cube.getD 0 []).length))).length = ny
    rw [List.length_map, List.length_range, hny]
  · intro row hrow
    simp only [List.mem_map, List.mem_range] at hrow
    obtain ⟨j, hj, hrowEq⟩ := hrow
    have hge : 1 ≤ ny := by
      rw [hny] at hj
      omega
    rw [← hrowEq, List.length_map, List.length_range, hnx hge]
  · intro j k hj hk
    have hge : 1 ≤ ny := by omega
    rw [getD_map_range _ _ _ j (by rw [hny]; exact hj)]
    rw [getD_map_range _ _ _ k (by rw [hnx hge]; exact hk)]

/-- Witness for C6: the mean over time of a concrete 2 x 2 x 2 array. -/
theorem C6_reduce_over_time_witness :
    ((⟨["time", "y", "x"], [[[1, 2], [3, 4]], [[5, 6], [7, 8]]]⟩ : DataArray).dims =
      ["time", "y", "x"]) ∧ ("y" ≠ "time") ∧ ("x" ≠ "time") ∧
    (1 ≤ (⟨["time", "y", "x"], [[[1, 2], [3, 4]], [[5, 6], [7, 8]]]⟩ : DataArray).cube.length) ∧
    (∀ s ∈ (⟨["time", "y", "x"], [[[1, 2], [3, 4]], [[5, 6], [7, 8]]]⟩ : DataArray).cube,
      s.length = 2 ∧ ∀ r ∈ s, r.length = 2) ∧
    (∃ r, reduceDim meanQ "time"
        (⟨["time", "y", "x"], [[[1, 2], [3, 4]], [[5, 6], [7, 8]]]⟩ : DataArray) = some r ∧
      r.dims = ["y", "x"] ∧ "time" ∉ r.dims ∧
      r.mat.length = 2 ∧ (∀ row ∈ r.mat, row.length = 2) ∧
      (∀ j k, j < 2 → k < 2 →
        (r.mat.getD j []).getD k 0 = meanQ (timeColumn
          (⟨["time", "y", "x"], [[[1, 2], [3, 4]], [[5, 6], [7, 8]]]⟩ : DataArray).cube j k))) :=
  ⟨rfl, by decide, by decide, by decide, by decide,
   C6_reduce_over_time meanQ ⟨["time", "y", "x"], [[[1, 2], [3, 4]], [[5, 6], [7, 8]]]⟩
     "y" "x" rfl (by decide) (by decide) 2 2 (by decide) (by decide)⟩
